import Mathlib

/-!
Verification of the multipart payload-encoding logic of the timber-sdk
repository (src/vendorPayment.ts, src/invoice.ts, src/billPayment.ts).

JS values that can occur in a request object are embedded as the inductive
`Value`; the browser/Node `FormData` sink is embedded as an ordered list of
`(String × FormVal)` pairs.  Machine-level JS semantics that the encoders
rely on (truthiness, `typeof`, `Object.entries`, the string coercion done
by `FormData.append`, `Date.prototype.toISOString`, `JSON.stringify`) are
embedded as executable Lean functions next to the encoders that use them.
-/

namespace Timber

/-- A JS primitive (scalar) value: string, number, boolean or Date.
Numbers are modelled as integers, a Date by its (non-negative) epoch
milliseconds. -/
inductive Scalar
  | str  : String → Scalar
  | num  : Int → Scalar
  | bool : Bool → Scalar
  | date : Nat → Scalar
deriving DecidableEq

/-- A JS value as it can appear in a request object handed to the SDK
services: a scalar, a File/Blob (identified by an opaque id), a plain
object (own enumerable string-keyed entries, in insertion order), an
array, a Symbol (identified by an opaque id), `undefined`, or `null`. -/
inductive Value
  | scalar : Scalar → Value
  | blob   : Nat → Value
  | obj    : List (String × Value) → Value
  | arr    : List Value → Value
  | sym    : Nat → Value
  | undef  : Value
  | null   : Value

/-- JS truthiness of a scalar: the empty string, `0` and `false` are falsy. -/
def scalarTruthy : Scalar → Bool
  | .str s  => !s.isEmpty
  | .num n  => n != 0
  | .bool b => b
  | .date _ => true

/-- JS truthiness (`if (v)`): `undefined`, `null`, `""`, `0` and `false` are
falsy; every object, array, Blob, Symbol and Date is truthy. -/
def truthy : Value → Bool
  | .scalar s => scalarTruthy s
  | .blob _   => true
  | .obj _    => true
  | .arr _    => true
  | .sym _    => true
  | .undef    => false
  | .null     => false

/-- Left-pad a numeral to two digits. -/
def pad2 (n : Nat) : String :=
  if n < 10 then "0" ++ toString n else toString n

/-- Left-pad a numeral to three digits. -/
def pad3 (n : Nat) : String :=
  if n < 10 then "00" ++ toString n
  else if n < 100 then "0" ++ toString n
  else toString n

/-- Left-pad a numeral to four digits. -/
def pad4 (n : Nat) : String :=
  if n < 10 then "000" ++ toString n
  else if n < 100 then "00" ++ toString n
  else if n < 1000 then "0" ++ toString n
  else toString n

/-- Convert a count of days since 1970-01-01 into a civil `(year, month, day)`
triple (proleptic Gregorian calendar, days ≥ 0). -/
def civilFromDays (days : Nat) : Nat × Nat × Nat :=
  let z := days + 719468
  let era := z / 146097
  let doe := z % 146097
  let yoe := (doe - doe / 1460 + doe / 36524 - doe / 146096) / 365
  let y := yoe + era * 400
  let doy := doe - (365 * yoe + yoe / 4 - yoe / 100)
  let mp := (5 * doy + 2) / 153
  let d := doy - (153 * mp + 2) / 5 + 1
  let m := if mp < 10 then mp + 3 else mp - 9
  (if m ≤ 2 then y + 1 else y, m, d)

/-- JS `Date.prototype.toISOString` for a timestamp of `ms` milliseconds
since the epoch (timestamps at or after 1970 in this model): the ISO-8601
full timestamp `YYYY-MM-DDTHH:mm:ss.sssZ`. -/
def toISOString (ms : Nat) : String :=
  let total := ms / 1000
  let msec := ms % 1000
  let sec := total % 60
  let minute := total / 60 % 60
  let hour := total / 3600 % 24
  let ymd := civilFromDays (total / 86400)
  pad4 ymd.1 ++ "-" ++ pad2 ymd.2.1 ++ "-" ++ pad2 ymd.2.2 ++ "T" ++
    pad2 hour ++ ":" ++ pad2 minute ++ ":" ++ pad2 sec ++ "." ++ pad3 msec ++ "Z"

/-- JS `String(date)` / `Date.prototype.toString`: an implementation- and
timezone-dependent human-readable rendering such as
`Mon Jun 23 2025 04:00:00 GMT+0400 (Gulf Standard Time)`.  It is modelled
abstractly by tagging the epoch value; the only fact about it the theorems
use is that it differs from the `toISOString` rendering, which is true in
every JS environment (this format starts with a weekday name, the ISO format
with a digit). -/
def dateDefaultString (ms : Nat) : String :=
  "DateString(" ++ toString ms ++ ")"

/-- The string JS produces for a scalar under string coercion:
strings pass through, numbers and booleans render canonically, and a Date
renders with the default (non-ISO) `Date.prototype.toString`. -/
def scalarText : Scalar → String
  | .str s  => s
  | .num n  => toString n
  | .bool b => if b then "true" else "false"
  | .date m => dateDefaultString m

mutual

/-- Does the implicit JS `ToString` coercion of this value throw?  It throws
exactly on a Symbol, and on an array whose recursive join reaches a Symbol
(plain objects stringify to `[object Object]` without looking inside). -/
def strThrows : Value → Bool
  | .sym _ => true
  | .arr vs => anyStrThrows vs
  | _ => false

def anyStrThrows : List Value → Bool
  | [] => false
  | v :: rest => strThrows v || anyStrThrows rest

end

mutual

/-- JS string conversion of a value (`String(v)` / `v.toString()`), for the
cases where it does not throw: scalars via `scalarText`, Blobs and plain
objects give `[object Object]`, arrays join their elements with commas
(`null`/`undefined` elements render empty), `undefined`/`null` render as
their names.  A Symbol renders as `Symbol()` under the explicit
`.toString()` method (the implicit coercion instead throws, see
`strThrows`). -/
def jsStringT : Value → String
  | .scalar s => scalarText s
  | .blob _ => "[object Object]"
  | .obj _ => "[object Object]"
  | .arr vs => jsJoinT vs
  | .sym _ => "Symbol()"
  | .undef => "undefined"
  | .null => "null"

/-- `Array.prototype.join ","`: elements are string-converted, with
`null`/`undefined` elements rendered as the empty string. -/
def jsJoinT : List Value → String
  | [] => ""
  | [.null] => ""
  | [.undef] => ""
  | [v] => jsStringT v
  | .null :: rest => "," ++ jsJoinT rest
  | .undef :: rest => "," ++ jsJoinT rest
  | v :: rest => jsStringT v ++ "," ++ jsJoinT rest

end

/-- A value as it sits in a `FormData` entry: either a text field (strings,
and everything `FormData.append` coerced to a string) or a binary Blob/File
part. -/
inductive FormVal
  | text : String → FormVal
  | blob : Nat → FormVal
deriving DecidableEq

/-- The error an encoding pass can raise: the `TypeError` thrown when the
string coercion performed by `FormData.append` meets a Symbol. -/
inductive EncError
  | symbolToString : EncError
deriving DecidableEq

/-- `FormData.append(name, v)` value handling: a Blob/File is kept as a
binary part, every other value is coerced to a string (which throws on a
Symbol). -/
def appendConv : Value → Except EncError FormVal
  | .blob b => .ok (.blob b)
  | v => if strThrows v then .error .symbolToString else .ok (.text (jsStringT v))

/-- `Object.entries(v)` for a value that passed the
`typeof v === "object" && v !== null` test: a plain object yields its own
enumerable entries in insertion order, an array its indexed entries, and a
Blob or Date (which also have `typeof` `"object"`) has no own enumerable
entries. -/
def objectEntries : Value → List (String × Value)
  | .obj subs => subs
  | .arr vs => vs.enum.map fun p => (toString p.1, p.2)
  | _ => []

/-! ### VendorPaymentService.create / update — the flattening loop
(src/vendorPayment.ts, lines 186–222 and 243–282; both methods run the
same loop) -/

/-- The `customer` / `biller` branch: for each own enumerable entry of the
value, a truthy sub-value appends one pair under `key[subKey]`; falsy
sub-values are skipped. -/
def encodeFlat (key : String) : List (String × Value) → Except EncError (List (String × FormVal))
  | [] => .ok []
  | (sk, sv) :: rest =>
    if truthy sv then
      match appendConv sv with
      | .error e => .error e
      | .ok fv =>
        match encodeFlat key rest with
        | .error e => .error e
        | .ok tail => .ok ((key ++ "[" ++ sk ++ "]", fv) :: tail)
    else encodeFlat key rest

/-- An array element that passed the `typeof item === "object" && item !== null`
test: every own enumerable entry is appended (no truthiness filter) under
`key[index][subKey]`. -/
def encodeObjElem (key : String) (i : Nat) : List (String × Value) → Except EncError (List (String × FormVal))
  | [] => .ok []
  | (sk, sv) :: rest =>
    match appendConv sv with
    | .error e => .error e
    | .ok fv =>
      match encodeObjElem key i rest with
      | .error e => .error e
      | .ok tail => .ok ((key ++ "[" ++ toString i ++ "][" ++ sk ++ "]", fv) :: tail)

/-- One array element.  A plain object (and an array, which is also
`typeof` `"object"`) takes the object branch; so do a Blob and a Date,
which have no own enumerable entries and therefore contribute nothing —
the source's later `item instanceof Blob` arm is unreachable because a
Blob already matched the object branch.  A string element appends a single
pair under the bare `key`.  `null` fails the null check and matches no
later branch; numbers, booleans, Symbols and `undefined` match no branch:
all of these are skipped silently. -/
def encodeArrItem (key : String) (i : Nat) : Value → Except EncError (List (String × FormVal))
  | .obj subs => encodeObjElem key i subs
  | .arr vs => encodeObjElem key i (objectEntries (.arr vs))
  | .blob _ => .ok []
  | .scalar (.date _) => .ok []
  | .scalar (.str s) => .ok [(key, .text s)]
  | _ => .ok []

/-- `value.forEach((item, index) => …)` over an array field. -/
def encodeArr (key : String) : Nat → List Value → Except EncError (List (String × FormVal))
  | _, [] => .ok []
  | i, item :: rest =>
    match encodeArrItem key i item with
    | .error e => .error e
    | .ok hd =>
      match encodeArr key (i + 1) rest with
      | .error e => .error e
      | .ok tl => .ok (hd ++ tl)

/-- One iteration of the `Object.entries(data).forEach` loop in
`VendorPaymentService.create`/`update`.  Keys `customer` and `biller` take
the flat-object branch (guarded by `typeof value === "object" && value !== null`,
which a Blob or a Date also passes — with no own enumerable entries — and
which an array passes with its indexed entries).  Otherwise: arrays are
walked element-wise; a Date appends its `toISOString`; a string or Blob is
appended directly; any other truthy value is appended through string
coercion (which throws on a Symbol); falsy values (`0`, `false`,
`undefined`, `null`) are skipped. -/
def encodeVPEntry (key : String) (value : Value) : Except EncError (List (String × FormVal)) :=
  if key == "customer" || key == "biller" then
    match value with
    | .obj subs => encodeFlat key subs
    | .arr vs => encodeFlat key (objectEntries (.arr vs))
    | _ => .ok []
  else
    match value with
    | .arr items => encodeArr key 0 items
    | .scalar (.date m) => .ok [(key, .text (toISOString m))]
    | .scalar (.str s) => .ok [(key, .text s)]
    | .blob b => .ok [(key, .blob b)]
    | .scalar (.num n) => if n == 0 then .ok [] else .ok [(key, .text (toString n))]
    | .scalar (.bool b) => if b then .ok [(key, .text "true")] else .ok []
    | .obj _ => .ok [(key, .text "[object Object]")]
    | .sym _ => .error .symbolToString
    | .undef => .ok []
    | .null => .ok []

/-- The whole `Object.entries(data).forEach` loop: fields are processed in
insertion order and their pairs appended to the form in turn; a throw
aborts the loop (the partially filled form is then discarded). -/
def encodeVP : List (String × Value) → Except EncError (List (String × FormVal))
  | [] => .ok []
  | (key, value) :: rest =>
    match encodeVPEntry key value with
    | .error e => .error e
    | .ok hd =>
      match encodeVP rest with
      | .error e => .error e
      | .ok tl => .ok (hd ++ tl)

/-- JS property access `data.logo` on the request object (own keys are
unique, so first match suffices). -/
def lookupField (key : String) : List (String × Value) → Option Value
  | [] => none
  | (k, v) :: rest => if k == key then some v else lookupField key rest

/-- The body an SDK method hands to the HTTP client: either the multipart
form it filled, or (in `InvoiceService.update`) the raw request object. -/
inductive Body
  | multipart : List (String × FormVal) → Body
  | rawJson   : List (String × Value) → Body

/-- What a service method does after building the payload: reject with the
caught error, or issue one HTTP request with a method, path and body. -/
inductive Outcome
  | reject  : EncError → Outcome
  | request : String → String → Body → Outcome

/-- `VendorPaymentService.create`: run the flattening loop inside
`try`/`catch` (a throw makes the method return `Promise.reject(error)`
before any network call); then `if (data.logo)` append the logo once more
under the wire key `file`; then POST the form.  A throw from that final
append happens outside the `try` but still rejects the async method before
any request. -/
def createVendorPayment (data : List (String × Value)) : Outcome :=
  match encodeVP data with
  | .error e => .reject e
  | .ok pairs =>
    match lookupField "logo" data with
    | some v =>
      if truthy v then
        match appendConv v with
        | .error e => .reject e
        | .ok fv => .request "POST" "/customer/purchase" (.multipart (pairs ++ [("file", fv)]))
      else .request "POST" "/customer/purchase" (.multipart pairs)
    | none => .request "POST" "/customer/purchase" (.multipart pairs)

/-- `VendorPaymentService.update`: identical loop and logo handling, but
PUT to `/customer/purchase/:id`. -/
def updateVendorPayment (id : String) (data : List (String × Value)) : Outcome :=
  match encodeVP data with
  | .error e => .reject e
  | .ok pairs =>
    match lookupField "logo" data with
    | some v =>
      if truthy v then
        match appendConv v with
        | .error e => .reject e
        | .ok fv =>
          .request "PUT" ("/customer/purchase/" ++ id) (.multipart (pairs ++ [("file", fv)]))
      else .request "PUT" ("/customer/purchase/" ++ id) (.multipart pairs)
    | none => .request "PUT" ("/customer/purchase/" ++ id) (.multipart pairs)

/-! ### InvoiceService.create / update (src/invoice.ts, lines 106–150) -/

/-- JSON string-literal escaping as performed by `JSON.stringify` (the
characters exercised here: quote, backslash, and the common control
characters). -/
def jsonEscapeChar (c : Char) : String :=
  if c = '"' then "\\\""
  else if c = '\\' then "\\\\"
  else if c = '\n' then "\\n"
  else if c = '\t' then "\\t"
  else if c = '\r' then "\\r"
  else String.singleton c

/-- A JSON string literal. -/
def jsonQuote (s : String) : String :=
  "\"" ++ String.join (s.toList.map jsonEscapeChar) ++ "\""

mutual

/-- `JSON.stringify(v)`, returning `none` where JS returns `undefined`
(for `undefined` and Symbol inputs).  A Date serializes through its
`toJSON` method, i.e. as the quoted `toISOString`; a Blob has no own
enumerable properties and serializes as `\x7b\x7d`. -/
def jsonValue : Value → Option String
  | .scalar (.str s) => some (jsonQuote s)
  | .scalar (.num n) => some (toString n)
  | .scalar (.bool b) => some (if b then "true" else "false")
  | .scalar (.date m) => some (jsonQuote (toISOString m))
  | .blob _ => some "\x7b\x7d"
  | .obj subs => some ("\x7b" ++ String.intercalate "," (jsonMembers subs) ++ "\x7d")
  | .arr vs => some ("[" ++ String.intercalate "," (jsonElems vs) ++ "]")
  | .sym _ => none
  | .undef => none
  | .null => some "null"

/-- Object members: entries whose value serializes to `undefined` are
omitted. -/
def jsonMembers : List (String × Value) → List String
  | [] => []
  | (k, v) :: rest =>
    (match jsonValue v with
     | some s => [jsonQuote k ++ ":" ++ s]
     | none => []) ++ jsonMembers rest

/-- Array elements: elements that serialize to `undefined` become `null`. -/
def jsonElems : List Value → List String
  | [] => []
  | v :: rest =>
    (match jsonValue v with
     | some s => [s]
     | none => ["null"]) ++ jsonElems rest

end

/-- `JSON.stringify` as a total function on this value domain; the `none`
cases (where JS returns the value `undefined`, not a string) are rendered
as the string `undefined` and are never exercised by the fields the
invoice service serializes this way. -/
def jsonStr (v : Value) : String :=
  match jsonValue v with
  | some s => s
  | none => "undefined"

/-- `typeof value.pipe === "function"`: true only for Node streams, which
this value domain does not contain, so the ReadStream branch of the
invoice encoder is never taken here. -/
def hasPipeFn : Value → Bool := fun _ => false

/-- One iteration of the `for (const key in data)` loop in
`InvoiceService.create`/`update`: the `items`, `customer` and `biller`
fields are appended as a single `JSON.stringify` text pair under the bare
key; a `logo` value with a `pipe` method would be appended as a stream; a
Date appends its `toISOString`; `undefined` and `null` are skipped; every
other value is appended as `value.toString()`. -/
def encodeInvoiceEntry (key : String) (value : Value) : List (String × FormVal) :=
  if key == "items" || key == "customer" || key == "biller" then
    [(key, .text (jsonStr value))]
  else if key == "logo" && truthy value && hasPipeFn value then
    [("logo", .text "ReadStream")]
  else
    match value with
    | .scalar (.date m) => [(key, .text (toISOString m))]
    | .undef => []
    | .null => []
    | v => [(key, .text (jsStringT v))]

/-- The whole invoice field loop, fields in insertion order. -/
def encodeInvoice : List (String × Value) → List (String × FormVal)
  | [] => []
  | (k, v) :: rest => encodeInvoiceEntry k v ++ encodeInvoice rest

/-- `InvoiceService.create`: build the form and POST it. -/
def createInvoice (data : List (String × Value)) : Outcome :=
  .request "POST" "/customer/invoice" (.multipart (encodeInvoice data))

/-- `InvoiceService.update`: the form is built exactly as in `create`, but
only its headers are used — the second argument of `http.put` is the raw
`data` object, so the multipart pair sequence is discarded and the raw
object is what is transmitted. -/
def updateInvoice (id : String) (data : List (String × Value)) : Outcome :=
  .request "PUT" ("/customer/invoice/" ++ id) (.rawJson data)

/-! ### BillPaymentService.create / update (src/billPayment.ts, lines 106–178) -/

/-- The create/update payload of the bill-payment service
(src/billPayment.ts `CreateBillPaymentRequest`); `file` is the `[File]`
array, `none` when the field is absent. -/
structure BillPaymentRequest where
  invoice : String
  date : String
  payment_method : String
  cheque_no : Option String
  cheque_date : Option String
  cheque_due_date : Option String
  amount : Int
  bank_name : Option String
  is_paid : Bool
  file : Option (List Nat)

/-- `if (data.k) formData.append("k", data.k)` for an optional string
field: appended only when present and non-empty (JS truthiness). -/
def optStrPair (key : String) : Option String → List (String × FormVal)
  | some s => if s.isEmpty then [] else [(key, .text s)]
  | none => []

/-- `data.file[0]`: the first element of the file array; on an empty array
the access yields `undefined`, which `FormData.append` coerces to the text
`undefined`. -/
def fileHead : List Nat → FormVal
  | [] => .text "undefined"
  | b :: _ => .blob b

/-- The form built by both `BillPaymentService.create` and
`BillPaymentService.update`: the three mandatory strings, the optional
cheque/bank fields, `amount` via `toString` (always appended), and — when
`data.file` is present (any array is truthy) — a single `file` pair holding
`data.file[0]` only. `is_paid` is never appended. -/
def encodeBillPayment (d : BillPaymentRequest) : List (String × FormVal) :=
  [("invoice", .text d.invoice), ("date", .text d.date),
   ("payment_method", .text d.payment_method)]
  ++ optStrPair "cheque_no" d.cheque_no
  ++ optStrPair "cheque_date" d.cheque_date
  ++ optStrPair "cheque_due_date" d.cheque_due_date
  ++ optStrPair "bank_name" d.bank_name
  ++ [("amount", .text (toString d.amount))]
  ++ (match d.file with
      | some l => [("file", fileHead l)]
      | none => [])

/-- `BillPaymentService.create`: POST the form. -/
def createBillPayment (d : BillPaymentRequest) : Outcome :=
  .request "POST" "/customer/purchase/payment-record" (.multipart (encodeBillPayment d))

/-- `BillPaymentService.update`: PUT the same form. -/
def updateBillPayment (id : String) (d : BillPaymentRequest) : Outcome :=
  .request "PUT" ("/customer/purchase/payment-record/" ++ id)
    (.multipart (encodeBillPayment d))

/-! ### Spec-side definitions (from spec.md §3–§4): the data model of an
`EncodableRequest` and the pair sequence its rules describe, used to state
the ordering/refinement claims against the source encoder above. -/

/-- Spec-side: one field of an `EncodableRequest` (spec §3): a scalar, a
flat object of scalars, an array of flat objects, a binary attachment, or
an absent field. -/
inductive ReqField
  | scalarF : Scalar → ReqField
  | flatF : List (String × Scalar) → ReqField
  | arrF : List (List (String × Scalar)) → ReqField
  | blobF : Nat → ReqField
  | absentF : ReqField

/-- The JS value a spec-side field denotes. -/
def fieldValue : ReqField → Value
  | .scalarF s => .scalar s
  | .flatF subs => .obj (subs.map fun p => (p.1, Value.scalar p.2))
  | .arrF elems => .arr (elems.map fun subs => Value.obj (subs.map fun p => (p.1, Value.scalar p.2)))
  | .absentF => .undef
  | .blobF b => .blob b

/-- Spec-side pairs of a top-level scalar field (spec §4.1 rule 1, amended
per the source: strings and dates always emit one pair, numbers and
booleans only when truthy). -/
def specScalarPairs (key : String) : Scalar → List (String × FormVal)
  | .str s => [(key, .text s)]
  | .date m => [(key, .text (toISOString m))]
  | .num n => if n == 0 then [] else [(key, .text (toString n))]
  | .bool b => if b then [(key, .text "true")] else []

/-- Spec-side pairs of a flat-object field (spec §4.1 rule 2): one pair per
truthy sub-value, under `key[sub]`, in insertion order. -/
def specFlatPairs (key : String) (subs : List (String × Scalar)) : List (String × FormVal) :=
  (subs.filter fun p => scalarTruthy p.2).map
    fun p => (key ++ "[" ++ p.1 ++ "]", FormVal.text (scalarText p.2))

/-- Spec-side pairs of an array-of-objects field (spec §4.1 rule 3): for
each element index `i` and each sub-key `s` of that element, one pair under
`key[i][s]`, elements in index order, sub-keys in insertion order. -/
def objArrPairs (key : String) : Nat → List (List (String × Scalar)) → List (String × FormVal)
  | _, [] => []
  | i, subs :: rest =>
    (subs.map fun p =>
      (key ++ "[" ++ toString i ++ "][" ++ p.1 ++ "]", FormVal.text (scalarText p.2)))
    ++ objArrPairs key (i + 1) rest

/-- Spec-side pairs of one field, dispatching on its class. -/
def specFieldPairs (key : String) : ReqField → List (String × FormVal)
  | .scalarF s => specScalarPairs key s
  | .flatF subs => specFlatPairs key subs
  | .arrF elems => objArrPairs key 0 elems
  | .blobF b => [(key, .blob b)]
  | .absentF => []

/-- A field is routed by the source loop the way the spec's data model
expects exactly when flat objects sit under the `customer`/`biller` keys
and nothing else does. -/
def routesOk (key : String) : ReqField → Bool
  | .flatF _ => key == "customer" || key == "biller"
  | .absentF => true
  | _ => !(key == "customer" || key == "biller")

/-- Spec-side encoding of a whole request: the concatenation of the fields'
pair lists, in source field order (spec §3 invariant). -/
def specEncode : List (String × ReqField) → List (String × FormVal)
  | [] => []
  | (k, f) :: rest => specFieldPairs k f ++ specEncode rest

/-! ### Helper lemmas -/

/-- `FormData.append` on a scalar value always succeeds and yields the
scalar's coerced text. -/
theorem appendConv_scalar (s : Scalar) :
    appendConv (.scalar s) = .ok (.text (scalarText s)) := rfl

/-- The `customer`/`biller` branch on a flat object of scalars emits the
truthy sub-fields, in insertion order, under bracketed keys. -/
theorem encodeFlat_scalars (key : String) (subs : List (String × Scalar)) :
    encodeFlat key (subs.map fun p => (p.1, Value.scalar p.2)) =
      .ok (specFlatPairs key subs) := by
  induction subs with
  | nil => rfl
  | cons hd tl ih =>
    obtain ⟨sk, sv⟩ := hd
    cases h : scalarTruthy sv <;>
      simp [encodeFlat, truthy, h, appendConv_scalar, ih, specFlatPairs, List.filter_cons]

/-- An object array element whose sub-values are scalars emits one pair
per sub-key (no truthiness filter), in insertion order. -/
theorem encodeObjElem_scalars (key : String) (i : Nat) (subs : List (String × Scalar)) :
    encodeObjElem key i (subs.map fun p => (p.1, Value.scalar p.2)) =
      .ok (subs.map fun p =>
        (key ++ "[" ++ toString i ++ "][" ++ p.1 ++ "]", FormVal.text (scalarText p.2))) := by
  induction subs with
  | nil => rfl
  | cons hd tl ih =>
    obtain ⟨sk, sv⟩ := hd
    simp [encodeObjElem, appendConv_scalar, ih]

/-- The array walk over flat objects of scalars produces the indexed
bracketed pairs, elements in index order. -/
theorem encodeArr_objs (key : String) (i : Nat) (elems : List (List (String × Scalar))) :
    encodeArr key i
        (elems.map fun subs => Value.obj (subs.map fun p => (p.1, Value.scalar p.2))) =
      .ok (objArrPairs key i elems) := by
  induction elems generalizing i with
  | nil => rfl
  | cons hd tl ih =>
    simp [encodeArr, encodeArrItem, encodeObjElem_scalars, objArrPairs, ih]

/-- The array walk over string elements emits one bare-key pair per
element (repeated-key semantics), in index order. -/
theorem encodeArr_strs (key : String) (i : Nat) (ss : List String) :
    encodeArr key i (ss.map fun s => Value.scalar (.str s)) =
      .ok (ss.map fun s => (key, FormVal.text s)) := by
  induction ss generalizing i with
  | nil => rfl
  | cons hd tl ih => simp [encodeArr, encodeArrItem, ih]

/-- The array walk over Blob elements emits nothing: each Blob matches the
`typeof item === "object"` branch and has no own enumerable entries. -/
theorem encodeArr_blobs (key : String) (i : Nat) (bs : List Nat) :
    encodeArr key i (bs.map Value.blob) = .ok [] := by
  induction bs generalizing i with
  | nil => rfl
  | cons hd tl ih => simp [encodeArr, encodeArrItem, ih]

/-- A correctly routed spec-side field is encoded by the source loop into
exactly its spec-side pair list. -/
theorem encodeVPEntry_spec (key : String) (f : ReqField) (h : routesOk key f = true) :
    encodeVPEntry key (fieldValue f) = .ok (specFieldPairs key f) := by
  cases f with
  | scalarF s =>
    have hk : (key == "customer" || key == "biller") = false := by
      simpa [routesOk] using h
    cases s <;> simp [encodeVPEntry, fieldValue, specFieldPairs, specScalarPairs, hk] <;>
      first
      | rfl
      | (split <;> rfl)
  | flatF subs =>
    have hk : (key == "customer" || key == "biller") = true := by
      simpa [routesOk] using h
    simp [encodeVPEntry, fieldValue, specFieldPairs, hk, encodeFlat_scalars]
  | arrF elems =>
    have hk : (key == "customer" || key == "biller") = false := by
      simpa [routesOk] using h
    simp [encodeVPEntry, fieldValue, specFieldPairs, hk, encodeArr_objs]
  | blobF b =>
    have hk : (key == "customer" || key == "biller") = false := by
      simpa [routesOk] using h
    simp [encodeVPEntry, fieldValue, specFieldPairs, hk]
  | absentF =>
    cases hk : (key == "customer" || key == "biller") <;>
      simp [encodeVPEntry, fieldValue, specFieldPairs, hk]

/-- The source loop refines the spec-side encoding: on any correctly
routed request it succeeds and produces the fields' pair lists
concatenated in source field order. -/
theorem encodeVP_spec (fields : List (String × ReqField))
    (h : ∀ p ∈ fields, routesOk p.1 p.2 = true) :
    encodeVP (fields.map fun p => (p.1, fieldValue p.2)) = .ok (specEncode fields) := by
  induction fields with
  | nil => rfl
  | cons hd tl ih =>
    obtain ⟨k, f⟩ := hd
    have h1 : routesOk k f = true := h _ (List.mem_cons_self _ _)
    have h2 : ∀ p ∈ tl, routesOk p.1 p.2 = true := fun p hp => h p (List.mem_cons_of_mem _ hp)
    simp [encodeVP, encodeVPEntry_spec _ _ h1, ih h2, specEncode]

/-- `optStrPair` never produces a pair under a different key. -/
theorem filter_file_optStrPair (k : String) (hk : (k == "file") = false) (o : Option String) :
    (optStrPair k o).filter (fun p => p.1 == "file") = [] := by
  cases o with
  | none => rfl
  | some s => by_cases h : s.isEmpty <;> simp [optStrPair, h, hk]

/-! ### Claim theorems -/

/-- C1 (amended): in `VendorPaymentService.create`, a present top-level
string or Date scalar field always produces exactly one pair (strings pass
through, Dates render as their ISO timestamp); a present number or boolean
field produces exactly one pair only when truthy and is silently dropped
when it is `0` or `false`; an absent (`undefined`/`null`) field produces
no pair. -/
theorem c1_top_scalar_fields (k : String)
    (hk : (k == "customer" || k == "biller") = false) :
    (∀ s : String, encodeVPEntry k (.scalar (.str s)) = .ok [(k, .text s)])
    ∧ (∀ m : Nat, encodeVPEntry k (.scalar (.date m)) = .ok [(k, .text (toISOString m))])
    ∧ (∀ n : Int, encodeVPEntry k (.scalar (.num n)) =
        if n == 0 then .ok [] else .ok [(k, .text (toString n))])
    ∧ (∀ b : Bool, encodeVPEntry k (.scalar (.bool b)) =
        if b then .ok [(k, .text "true")] else .ok [])
    ∧ encodeVPEntry k .undef = .ok []
    ∧ encodeVPEntry k .null = .ok [] := by
  refine ⟨fun s => ?_, fun m => ?_, fun n => ?_, fun b => ?_, ?_, ?_⟩ <;>
    simp [encodeVPEntry, hk]

/-- C1 witness: a present string field emits one pair; a present zero
number field and an absent field emit none. -/
theorem c1_witness :
    encodeVPEntry "title" (.scalar (.str "Vendor Payment")) =
      .ok [("title", .text "Vendor Payment")]
    ∧ encodeVPEntry "amount_paid" (.scalar (.num 0)) = .ok []
    ∧ encodeVPEntry "notes" .undef = .ok [] := by
  refine ⟨(c1_top_scalar_fields "title" rfl).1 "Vendor Payment", ?_,
    (c1_top_scalar_fields "notes" rfl).2.2.2.2.1⟩
  have h := (c1_top_scalar_fields "amount_paid" rfl).2.2.1 0
  simpa using h

/-- C1 counterexample: the top-level scalar field `amount_paid = 0` is
present, yet the encoded output of `create` contains no pair at all for
it — contradicting "each present top-level scalar field produces exactly
one pair". -/
theorem c1_counterexample :
    createVendorPayment [("amount_paid", .scalar (.num 0))] =
      .request "POST" "/customer/purchase" (.multipart []) := rfl

/-- C2: for the `customer`/`biller` flat-object fields, every falsy
sub-value is skipped and every truthy sub-value emits exactly one pair
under `parent[sub]`, sub-keys in insertion order (the output equals the
insertion-ordered filter-map of the sub-entries). -/
theorem c2_flat_object_fields (key : String)
    (hk : (key == "customer" || key == "biller") = true) :
    (∀ subs : List (String × Scalar),
       encodeVPEntry key (.obj (subs.map fun p => (p.1, Value.scalar p.2))) =
         .ok (specFlatPairs key subs))
    ∧ (∀ (sk : String) (v : Value) (rest : List (String × Value)),
       truthy v = false → encodeFlat key ((sk, v) :: rest) = encodeFlat key rest) := by
  constructor
  · intro subs
    simp [encodeVPEntry, hk, encodeFlat_scalars]
  · intro sk v rest hv
    simp [encodeFlat, hv]

/-- C2 witness: a truthy `name` sub-field emits `customer[name]`, the
empty-string `trn` sub-field is skipped; a `null` sub-value is skipped. -/
theorem c2_witness :
    encodeVPEntry "customer"
        (.obj [("name", .scalar (.str "John Doe")), ("trn", .scalar (.str ""))]) =
      .ok [("customer[name]", .text "John Doe")]
    ∧ encodeFlat "biller" [("email", .null)] = encodeFlat "biller" [] := by
  constructor
  · exact ((c2_flat_object_fields "customer" rfl).1
      [("name", .str "John Doe"), ("trn", .str "")]).trans rfl
  · exact (c2_flat_object_fields "biller" rfl).2 "email" .null [] rfl

/-- C3 (amended): an ObjectArray field emits, for object elements, one
pair `field[index][subkey]` per element index and sub-key in index order;
an empty array emits zero pairs and no error; a string element emits a
single bare-key pair with repeated-key semantics; but a binary (Blob)
element emits zero pairs — it matches the `typeof item === "object"`
branch (which has no own enumerable entries), so the source's
`instanceof Blob` arm never fires for it. -/
theorem c3_object_array_fields (k : String)
    (hk : (k == "customer" || k == "biller") = false) :
    encodeVPEntry k (.arr []) = .ok []
    ∧ (∀ elems : List (List (String × Scalar)),
        encodeVPEntry k
            (.arr (elems.map fun subs => Value.obj (subs.map fun p => (p.1, Value.scalar p.2)))) =
          .ok (objArrPairs k 0 elems))
    ∧ (∀ ss : List String,
        encodeVPEntry k (.arr (ss.map fun s => Value.scalar (.str s))) =
          .ok (ss.map fun s => (k, FormVal.text s)))
    ∧ (∀ bs : List Nat, encodeVPEntry k (.arr (bs.map Value.blob)) = .ok []) := by
  refine ⟨?_, fun elems => ?_, fun ss => ?_, fun bs => ?_⟩ <;>
    simp [encodeVPEntry, hk, encodeArr, encodeArr_objs, encodeArr_strs, encodeArr_blobs]

/-- C3 witness: a one-element object array emits its indexed pairs; a
two-string array emits two repeated bare-key pairs. -/
theorem c3_witness :
    encodeVPEntry "items"
        (.arr [.obj [("title", .scalar (.str "Item 1")), ("rate", .scalar (.num 100))]]) =
      .ok [("items[0][title]", .text "Item 1"), ("items[0][rate]", .text "100")]
    ∧ encodeVPEntry "tags" (.arr [.scalar (.str "a"), .scalar (.str "b")]) =
      .ok [("tags", .text "a"), ("tags", .text "b")] := by
  constructor
  · exact ((c3_object_array_fields "items" rfl).2.1
      [[("title", .str "Item 1"), ("rate", .num 100)]]).trans rfl
  · exact ((c3_object_array_fields "tags" rfl).2.2.1 ["a", "b"]).trans rfl

/-- C3 counterexample: an array whose element is a Blob produces zero
pairs, not the claimed single bare-key binary pair. -/
theorem c3_counterexample :
    createVendorPayment [("items", .arr [.blob 7])] =
      .request "POST" "/customer/purchase" (.multipart []) := rfl

/-- C4 (amended): a present logo Blob contributes two pairs, not one: the
generic loop emits `("logo", blob)` in field position, and after the loop
a final `("file", blob)` pair is appended after all other pairs; an absent
logo contributes zero pairs. -/
theorem c4_attachment (data : List (String × Value)) (pairs : List (String × FormVal))
    (h : encodeVP data = .ok pairs) :
    (∀ b : Nat, lookupField "logo" data = some (.blob b) →
       createVendorPayment data =
         .request "POST" "/customer/purchase" (.multipart (pairs ++ [("file", .blob b)])))
    ∧ (lookupField "logo" data = none →
       createVendorPayment data = .request "POST" "/customer/purchase" (.multipart pairs))
    ∧ (∀ b : Nat, encodeVPEntry "logo" (.blob b) = .ok [("logo", .blob b)]) := by
  refine ⟨fun b hb => ?_, fun hn => ?_, fun b => rfl⟩
  · simp [createVendorPayment, h, hb, truthy, appendConv]
  · simp [createVendorPayment, h, hn]

/-- C4 witness: with a scalar field and a logo Blob, the `file` pair is
appended after all loop pairs. -/
theorem c4_witness :
    createVendorPayment [("title", .scalar (.str "t")), ("logo", .blob 9)] =
      .request "POST" "/customer/purchase"
        (.multipart ([("title", .text "t"), ("logo", .blob 9)] ++ [("file", .blob 9)])) :=
  (c4_attachment [("title", .scalar (.str "t")), ("logo", .blob 9)]
    [("title", .text "t"), ("logo", .blob 9)] rfl).1 9 rfl

/-- C4 counterexample: a request whose only field is a logo Blob is
encoded into two pairs — `("logo", blob)` and `("file", blob)` — so the
attachment does not appear as a single pair under the wire key `file`. -/
theorem c4_counterexample :
    createVendorPayment [("logo", .blob 3)] =
      .request "POST" "/customer/purchase"
        (.multipart [("logo", .blob 3), ("file", .blob 3)]) := rfl

/-- C5 (amended): the encoder never raises an error for the shapes the
claim lists.  A depth-2 nested object sub-value of `customer`/`biller` is
emitted (it is truthy) as the coerced text `[object Object]`; ObjectArray
elements that are neither objects nor strings — `null`, numbers, booleans,
`undefined` — are silently skipped, producing zero pairs and no error. -/
theorem c5_no_encoding_error :
    (∀ (sk : String) (subs : List (String × Value)),
       encodeFlat "customer" [(sk, .obj subs)] =
         .ok [("customer" ++ "[" ++ sk ++ "]", .text "[object Object]")])
    ∧ (∀ k : String, (k == "customer" || k == "biller") = false →
       ∀ (n : Int) (b : Bool),
         encodeVPEntry k (.arr [.null, .scalar (.num n), .scalar (.bool b), .undef]) =
           .ok []) := by
  constructor
  · intro sk subs
    simp [encodeFlat, truthy, appendConv, strThrows, jsStringT]
  · intro k hk n b
    simp [encodeVPEntry, hk, encodeArr, encodeArrItem]

/-- C5 witness: an items array holding `null`, a number, a boolean and
`undefined` encodes to zero pairs without error. -/
theorem c5_witness :
    encodeVPEntry "items" (.arr [.null, .scalar (.num 5), .scalar (.bool true), .undef]) =
      .ok [] :=
  c5_no_encoding_error.2 "items" rfl 5 true

/-- C5 counterexample: inputs the claim says must fail with an
`EncodingError` are encoded silently — an ObjectArray containing `null`
yields a successful empty encoding, a depth-2 nested object is coerced to
`[object Object]`, and a nested array sub-value is coerced to its comma
join; in each case `create` issues the HTTP request. -/
theorem c5_counterexample :
    createVendorPayment [("items", .arr [.null])] =
      .request "POST" "/customer/purchase" (.multipart [])
    ∧ createVendorPayment
        [("customer", .obj [("address", .obj [("city", .scalar (.str "Dubai"))])])] =
      .request "POST" "/customer/purchase"
        (.multipart [("customer[address]", .text "[object Object]")])
    ∧ createVendorPayment
        [("customer", .obj [("tags", .arr [.scalar (.num 1), .scalar (.num 2)])])] =
      .request "POST" "/customer/purchase"
        (.multipart [("customer[tags]", .text "1,2")]) :=
  ⟨rfl, rfl, rfl⟩

/-- C6 (amended): only a top-level Date scalar is rendered via
`toISOString`; a Date sub-value of a flat-object field or of an
ObjectArray element is passed to `FormData.append` directly and rendered
with the default (environment-dependent, non-ISO) `Date.prototype.toString`.
The concrete epoch `1750636800000` renders in ISO form as
`2025-06-23T00:00:00.000Z`. -/
theorem c6_date_rendering (m : Nat) :
    (∀ k : String, (k == "customer" || k == "biller") = false →
       encodeVPEntry k (.scalar (.date m)) = .ok [(k, .text (toISOString m))])
    ∧ (∀ key sk : String,
       encodeFlat key [(sk, .scalar (.date m))] =
         .ok [(key ++ "[" ++ sk ++ "]", .text (dateDefaultString m))])
    ∧ (∀ (key : String) (i : Nat) (sk : String),
       encodeObjElem key i [(sk, .scalar (.date m))] =
         .ok [(key ++ "[" ++ toString i ++ "][" ++ sk ++ "]", .text (dateDefaultString m))])
    ∧ toISOString 1750636800000 = "2025-06-23T00:00:00.000Z" := by
  refine ⟨fun k hk => ?_, fun key sk => ?_, fun key i sk => ?_, rfl⟩
  · simp [encodeVPEntry, hk]
  · simp [encodeFlat, truthy, scalarTruthy, appendConv, strThrows, jsStringT, scalarText]
  · simp [encodeObjElem, appendConv, strThrows, jsStringT, scalarText]

/-- C6 witness: a top-level `invoice_date` Date field renders as the ISO
timestamp. -/
theorem c6_witness :
    encodeVPEntry "invoice_date" (.scalar (.date 1750636800000)) =
      .ok [("invoice_date", .text "2025-06-23T00:00:00.000Z")] :=
  ((c6_date_rendering 1750636800000).1 "invoice_date" rfl).trans rfl

/-- C6 counterexample: a Date inside the `customer` flat object is emitted
with the default date rendering, which differs from the ISO-8601 timestamp
the claim requires. -/
theorem c6_counterexample :
    createVendorPayment [("customer", .obj [("dob", .scalar (.date 1750636800000))])] =
      .request "POST" "/customer/purchase"
        (.multipart [("customer[dob]", .text (dateDefaultString 1750636800000))])
    ∧ dateDefaultString 1750636800000 ≠ toISOString 1750636800000 :=
  ⟨rfl, by decide⟩

/-- C7 (amended): in the invoice service the `customer`, `biller` and
`items` fields are not flattened into bracketed key paths — each is
serialized as a single `JSON.stringify` text pair under its bare key; the
`create` path hands the multipart pair sequence to HTTP POST, while the
`update` path builds the form but transmits the raw data object over HTTP
PUT. -/
theorem c7_invoice_encoding (k : String)
    (hk : (k == "items" || k == "customer" || k == "biller") = true) :
    (∀ v : Value, encodeInvoiceEntry k v = [(k, .text (jsonStr v))])
    ∧ (∀ data : List (String × Value),
       createInvoice data =
         .request "POST" "/customer/invoice" (.multipart (encodeInvoice data)))
    ∧ (∀ (id : String) (data : List (String × Value)),
       updateInvoice id data = .request "PUT" ("/customer/invoice/" ++ id) (.rawJson data)) := by
  refine ⟨fun v => ?_, fun data => rfl, fun id data => rfl⟩
  simp [encodeInvoiceEntry, hk]

/-- C7 witness: a `biller` object serializes as one JSON text pair under
the bare key. -/
theorem c7_witness :
    encodeInvoiceEntry "biller" (.obj [("name", .scalar (.str "ACME"))]) =
      [("biller", .text "\x7b\"name\":\"ACME\"\x7d")] :=
  ((c7_invoice_encoding "biller" rfl).1 (.obj [("name", .scalar (.str "ACME"))])).trans rfl

/-- C7 counterexample: `InvoiceService.create` emits the `customer` field
as a single JSON-stringified pair under the bare key `customer` — no
`customer[name]` bracketed pair exists — and `InvoiceService.update`
transmits the raw data object, not the multipart key/value sequence. -/
theorem c7_counterexample :
    createInvoice [("customer", .obj [("name", .scalar (.str "John Doe"))])] =
      .request "POST" "/customer/invoice"
        (.multipart [("customer", .text "\x7b\"name\":\"John Doe\"\x7d")])
    ∧ updateInvoice "inv1" [("items", .arr [.obj [("title", .scalar (.str "Item 1"))]])] =
      .request "PUT" "/customer/invoice/inv1"
        (.rawJson [("items", .arr [.obj [("title", .scalar (.str "Item 1"))]])]) :=
  ⟨rfl, rfl⟩

/-- C8: when the encoding loop of `VendorPaymentService.create` fails, the
method returns a rejected result carrying the original cause, and no HTTP
request is issued. -/
theorem c8_encoding_failure (data : List (String × Value)) (e : EncError)
    (h : encodeVP data = .error e) :
    createVendorPayment data = .reject e
    ∧ ∀ (m p : String) (b : Body), createVendorPayment data ≠ .request m p b := by
  have hc : createVendorPayment data = .reject e := by
    simp [createVendorPayment, h]
  exact ⟨hc, fun m p b hb => by rw [hc] at hb; exact Outcome.noConfusion hb⟩

/-- C8 witness: a field holding a Symbol makes the loop throw; `create`
rejects with that error and issues no request. -/
theorem c8_witness :
    createVendorPayment [("meta", .sym 0)] = .reject .symbolToString :=
  (c8_encoding_failure [("meta", .sym 0)] .symbolToString rfl).1

/-- C9: the `create` encoding is deterministic (it is a pure function of
the request), and on every correctly routed request the loop's output is
exactly the spec-side pair sequence: fields in source order, sub-keys in
insertion order for objects, indices in order for arrays. -/
theorem c9_deterministic_ordering :
    (∀ data : List (String × Value), createVendorPayment data = createVendorPayment data)
    ∧ (∀ fields : List (String × ReqField),
       (∀ p ∈ fields, routesOk p.1 p.2 = true) →
       encodeVP (fields.map fun p => (p.1, fieldValue p.2)) = .ok (specEncode fields)) :=
  ⟨fun _ => rfl, encodeVP_spec⟩

/-- C9 witness: a request with a scalar, a flat object, an object array
and a Blob encodes to the spec-ordered pair sequence. -/
theorem c9_witness :
    encodeVP [("title", .scalar (.str "T")), ("customer", .obj [("name", .scalar (.str "N"))]),
              ("items", .arr [.obj [("rate", .scalar (.num 100))]]), ("logo", .blob 1)] =
      .ok [("title", .text "T"), ("customer[name]", .text "N"),
           ("items[0][rate]", .text "100"), ("logo", .blob 1)] :=
  (c9_deterministic_ordering.2
      [("title", .scalarF (.str "T")), ("customer", .flatF [("name", .str "N")]),
       ("items", .arrF [[("rate", .num 100)]]), ("logo", .blobF 1)]
      (by decide)).trans rfl

/-- C10: in `BillPaymentService.create` and `update`, a present `file`
array contributes exactly one pair, holding its first element under the
key `file`; the remaining elements never influence the multipart body
(the body equals the one built from the one-element array). -/
theorem c10_bill_payment_file (inv dt pm : String) (cn cd cdd bn : Option String)
    (amt : Int) (ip : Bool) (b : Nat) (rest : List Nat) (idv : String) :
    encodeBillPayment ⟨inv, dt, pm, cn, cd, cdd, amt, bn, ip, some (b :: rest)⟩ =
      encodeBillPayment ⟨inv, dt, pm, cn, cd, cdd, amt, bn, ip, some [b]⟩
    ∧ (encodeBillPayment ⟨inv, dt, pm, cn, cd, cdd, amt, bn, ip, some (b :: rest)⟩).filter
        (fun p => p.1 == "file") = [("file", FormVal.blob b)]
    ∧ createBillPayment ⟨inv, dt, pm, cn, cd, cdd, amt, bn, ip, some (b :: rest)⟩ =
        .request "POST" "/customer/purchase/payment-record"
          (.multipart (encodeBillPayment ⟨inv, dt, pm, cn, cd, cdd, amt, bn, ip, some (b :: rest)⟩))
    ∧ updateBillPayment idv ⟨inv, dt, pm, cn, cd, cdd, amt, bn, ip, some (b :: rest)⟩ =
        .request "PUT" ("/customer/purchase/payment-record/" ++ idv)
          (.multipart (encodeBillPayment ⟨inv, dt, pm, cn, cd, cdd, amt, bn, ip, some (b :: rest)⟩)) := by
  refine ⟨rfl, ?_, rfl, rfl⟩
  simp only [encodeBillPayment, List.filter_append]
  rw [filter_file_optStrPair "cheque_no" rfl cn, filter_file_optStrPair "cheque_date" rfl cd,
      filter_file_optStrPair "cheque_due_date" rfl cdd, filter_file_optStrPair "bank_name" rfl bn]
  rfl

end Timber
